import Mathlib

/-
Verification of the offset-recovery and multi-source merge engine of the
Translation-Set-Processing repository (src/excel_processor.py, src/utils.py,
src/config.py).

The embedding models a pandas DataFrame as an ordered list of named columns,
each column an ordered list of cell strings (the program reads every sheet
with keep_default_na=False, so cells are plain strings).  File I/O, logging
delivery and path handling are external collaborators; the functions below
embed the in-memory pipeline of ModuleTranslationAugmentor:

  - find_subsequence_index       (_find_subsequence_index, lines 160-174)
  - load_module_masters          (_load_module_masters, lines 68-110)
  - compute_offsets / offsetsLoop / compute_offsets_from_first_language
                                 (_compute_offsets_from_first_language, 113-158)
  - processLang / mergeModules / mergeModuleStep / mergeLangs /
    load_all_language_files_and_write_modules
                                 (_load_all_language_files_and_write_modules, 176-264)
  - run                          (run, lines 51-66)

Directory listing and sorting (glob + sort by stem.lower) happen at the I/O
boundary; the embedded functions receive the already-sorted list of
(file stem, DataFrame) pairs, the head of the language list being the
designated reference source.
-/

/-- A table: ordered named columns, each a list of cell strings. -/
structure DataFrame where
  cols : List (String × List String)
deriving DecidableEq, Repr

/-- Column lookup, first match by name (pandas df[name] on unique columns). -/
def DataFrame.getCol (df : DataFrame) (name : String) : Option (List String) :=
  (df.cols.find? (fun c => c.1 = name)).map (fun c => c.2)

/-- Column membership test (Python: name in df.columns). -/
def DataFrame.hasCol (df : DataFrame) (name : String) : Bool :=
  df.cols.any (fun c => c.1 = name)

/-- List-level column assignment: pandas df[name] = vals replaces the column
in place when it exists, otherwise appends it as the last column. -/
def setColList (cols : List (String × List String)) (name : String)
    (vals : List String) : List (String × List String) :=
  if cols.any (fun c => c.1 = name) then
    cols.map (fun c => if c.1 = name then (name, vals) else c)
  else
    cols ++ [(name, vals)]

/-- pandas df[name] = vals. -/
def DataFrame.setCol (df : DataFrame) (name : String) (vals : List String) :
    DataFrame :=
  ⟨setColList df.cols name vals⟩

/-- Row count (pandas df.shape[0]): the length of the first column, 0 for an
empty frame. -/
def DataFrame.nrows (df : DataFrame) : Nat :=
  match df.cols with
  | [] => 0
  | c :: _ => c.2.length

/-- Well-formedness: every column has the frame's row count (always true of a
real pandas DataFrame). -/
def DataFrame.Wf (df : DataFrame) : Prop :=
  ∀ c ∈ df.cols, c.2.length = df.nrows

instance (df : DataFrame) : Decidable df.Wf := by
  unfold DataFrame.Wf; infer_instance

/-- pandas df.iloc[s:e] for 0 ≤ s ≤ e: rows s, …, e-1 of every column. -/
def DataFrame.slice (df : DataFrame) (s e : Nat) : DataFrame :=
  ⟨df.cols.map (fun c => (c.1, (c.2.drop s).take (e - s)))⟩

/-- config.SOURCE_LANGUAGE_COL: the reference column of module masters. -/
def SOURCE_LANGUAGE_COL : String := "English (US) [Primary]"

/-- config.TRANSLATION_SOURCE_COL: the reference column of language files. -/
def TRANSLATION_SOURCE_COL : String := "en_US"

/-- utils.get_locale_code_from_filename, applied to the file stem: lowercase
the base name (extension stripping happens at the I/O boundary). -/
def get_locale_code_from_filename (stem : String) : String :=
  stem.toLower

/-- The scan loop of _find_subsequence_index: `for i in range(start, n-m+1)`,
unrolled on the number of remaining iterations k. -/
def scanCount (h nd : List String) : Nat → Nat → Int
  | _, 0 => -1
  | i, k + 1 =>
    if (h.drop i).take nd.length = nd then (i : Int)
    else scanCount h nd (i + 1) k

/-- _find_subsequence_index: first index i ≥ start with
haystack[i : i+len(needle)] == needle, else -1; -1 outright when the needle
is empty or longer than the haystack. -/
def find_subsequence_index (haystack needle : List String) (start : Nat) : Int :=
  if needle.length = 0 ∨ haystack.length < needle.length then -1
  else scanCount haystack needle start (haystack.length - needle.length + 1 - start)

/-- The needle occurs contiguously at position i of the haystack. -/
def occursAt (h nd : List String) (i : Nat) : Prop :=
  (h.drop i).take nd.length = nd

instance (h nd : List String) (i : Nat) : Decidable (occursAt h nd i) := by
  unfold occursAt; infer_instance

/-- Sum of the modules' row counts (the accumulation of total_rows across
_load_module_masters). -/
def totalRows (modules : List (String × List String)) : Nat :=
  (modules.map (fun m => m.2.length)).sum

/-- The per-module body of _load_module_masters: extract each master's
reference-language column as its English list, failing on the first master
that lacks SOURCE_LANGUAGE_COL. -/
def loadEnglishLists : List (String × DataFrame) →
    Option (List (String × List String))
  | [] => some []
  | (name, df) :: rest =>
    match df.getCol SOURCE_LANGUAGE_COL with
    | none => none
    | some lst =>
      match loadEnglishLists rest with
      | none => none
      | some ms => some ((name, lst) :: ms)

/-- _load_module_masters on the already-read, already-sorted master files:
fails when there are no masters or one lacks the reference column; otherwise
yields the per-module English lists and the total row count. -/
def load_module_masters (moduleFiles : List (String × DataFrame)) :
    Option (List (String × List String) × Nat) :=
  if moduleFiles.isEmpty then none
  else
    match loadEnglishLists moduleFiles with
    | none => none
    | some modules => some (modules, totalRows modules)

/-- The per-module loop of _compute_offsets_from_first_language.  The Bool is
the method's return value; the list is the final state of self.offsets, which
is mutated entry by entry, so a failure partway leaves the entries recorded so
far (acc) in place. -/
def offsetsLoop (concatenated : List String) :
    List (String × Nat × Nat) → List (String × List String) →
      Bool × List (String × Nat × Nat)
  | acc, [] => (true, acc)
  | acc, (name, eng_list) :: rest =>
    let match_index := find_subsequence_index concatenated eng_list 0
    if match_index < 0 then (false, acc)
    else
      offsetsLoop concatenated
        (acc ++ [(name, match_index.toNat, match_index.toNat + eng_list.length)])
        rest

/-- The row-count gate and matching loop of
_compute_offsets_from_first_language, once the reference column has been
extracted as `concatenated`. -/
def compute_offsets (concatenated : List String)
    (modules : List (String × List String)) (total : Nat) :
    Bool × List (String × Nat × Nat) :=
  if concatenated.length ≠ total then (false, [])
  else offsetsLoop concatenated [] modules

/-- _compute_offsets_from_first_language: pick the first (lowest-sorting)
language file, require its TRANSLATION_SOURCE_COL, then run the gate and the
matching loop. -/
def compute_offsets_from_first_language (langFiles : List (String × DataFrame))
    (modules : List (String × List String)) (total : Nat) :
    Bool × List (String × Nat × Nat) :=
  match langFiles with
  | [] => (false, [])
  | (_, df) :: _ =>
    match df.getCol TRANSLATION_SOURCE_COL with
    | none => (false, [])
    | some concatenated => compute_offsets concatenated modules total

/-- The log events the merge pass can emit. -/
inductive Diag where
  | noLangFiles : Diag
  | skipMissingSourceCol (locale : String) : Diag
  | skipColCount (locale : String) (found : List String) : Diag
  | skipRowCount (locale : String) (actual expected : Nat) : Diag
  | englishMismatch (module_name locale : String)
      (basePreview slicePreview : List String) : Diag
  | appended (module_name locale : String) (rows : Nat) : Diag
deriving DecidableEq, Repr

/-- Log severity levels used by the merge pass. -/
inductive Severity where
  | info : Severity
  | warning : Severity
  | error : Severity
deriving DecidableEq, Repr

/-- The severity each event is logged at in the source. -/
def Diag.severity : Diag → Severity
  | .noLangFiles => .error
  | .skipMissingSourceCol _ => .error
  | .skipColCount _ _ => .error
  | .skipRowCount _ _ _ => .error
  | .englishMismatch _ _ _ _ => .warning
  | .appended _ _ _ => .info

/-- First-match association lookup (Python dict indexing on string keys). -/
def lookupAssoc {α : Type} : List (String × α) → String → Option α
  | [], _ => none
  | (k, v) :: rest, key => if k = key then some v else lookupAssoc rest key

/-- Association update (Python dict assignment to an existing key). -/
def updateAssoc {α : Type} (l : List (String × α)) (key : String) (v : α) :
    List (String × α) :=
  l.map (fun p => if p.1 = key then (key, v) else p)

/-- The body of the inner `for module_name, (start_idx, end_idx) in
self.offsets.items()` loop: slice the language frame, compare the slice's
reference column against the module's authoritative English list (warning
only), then assign the locale column positionally.  In the pipeline the two
dict lookups can never miss (offsets and merged frames share the module keys);
a miss is embedded as leaving the state unchanged. -/
def mergeModuleStep (bases : List (String × DataFrame)) (locale : String)
    (df2 : DataFrame) (merged : List (String × DataFrame)) (diags : List Diag)
    (name : String) (s e : Nat) : List (String × DataFrame) × List Diag :=
  match lookupAssoc merged name with
  | none => (merged, diags)
  | some df_merged =>
    let slice_lang := df2.slice s e
    let eng_base :=
      ((lookupAssoc bases name).bind
        (fun b => b.getCol SOURCE_LANGUAGE_COL)).getD []
    let eng_slice := (slice_lang.getCol TRANSLATION_SOURCE_COL).getD []
    let diags1 :=
      if eng_base ≠ eng_slice then
        diags ++ [Diag.englishMismatch name locale (eng_base.take 3)
          (eng_slice.take 3)]
      else diags
    let df_new := df_merged.setCol locale ((slice_lang.getCol locale).getD [])
    (updateAssoc merged name df_new,
      diags1 ++ [Diag.appended name locale (e - s)])

/-- The inner module loop of _load_all_language_files_and_write_modules,
iterating self.offsets in insertion order. -/
def mergeModules (bases : List (String × DataFrame)) (locale : String)
    (df2 : DataFrame) :
    List (String × DataFrame) × List Diag → List (String × Nat × Nat) →
      List (String × DataFrame) × List Diag
  | st, [] => st
  | (merged, diags), (name, s, e) :: rest =>
    mergeModules bases locale df2
      (mergeModuleStep bases locale df2 merged diags name s e) rest

/-- One iteration of the `for file_path in lang_files` loop: the per-source
validations (reference column present, exactly one other column, row count
equal to total), then the locale-column rename and the module loop.  Each
validation failure skips the source, leaving the merged frames untouched. -/
def processLang (offsets : List (String × Nat × Nat))
    (bases : List (String × DataFrame)) (total : Nat)
    (merged : List (String × DataFrame)) (stem : String) (df_lang : DataFrame) :
    List (String × DataFrame) × List Diag :=
  let locale := get_locale_code_from_filename stem
  if df_lang.hasCol TRANSLATION_SOURCE_COL = false then
    (merged, [Diag.skipMissingSourceCol locale])
  else
    let trans_cols :=
      (df_lang.cols.map Prod.fst).filter (fun c => c ≠ TRANSLATION_SOURCE_COL)
    if trans_cols.length ≠ 1 then
      (merged, [Diag.skipColCount locale trans_cols])
    else
      let translated_col := trans_cols.headD ""
      if df_lang.nrows ≠ total then
        (merged, [Diag.skipRowCount locale df_lang.nrows total])
      else
        let df2 := df_lang.setCol locale ((df_lang.getCol translated_col).getD [])
        mergeModules bases locale df2 (merged, []) offsets

/-- The outer loop over the sorted language files, threading the accumulating
merged frames and collecting diagnostics. -/
def mergeLangs (offsets : List (String × Nat × Nat))
    (bases : List (String × DataFrame)) (total : Nat) :
    List (String × DataFrame) × List Diag → List (String × DataFrame) →
      List (String × DataFrame) × List Diag
  | st, [] => st
  | (merged, diags), (stem, df) :: rest =>
    mergeLangs offsets bases total
      ((processLang offsets bases total merged stem df).1,
        diags ++ (processLang offsets bases total merged stem df).2) rest

/-- _load_all_language_files_and_write_modules: bail out (writing nothing)
when there are no language files, otherwise start from fresh copies of the
module bases and fold every language file through processLang.  The returned
frames are the tables handed to the writer. -/
def load_all_language_files_and_write_modules
    (offsets : List (String × Nat × Nat)) (bases : List (String × DataFrame))
    (total : Nat) (langFiles : List (String × DataFrame)) :
    List (String × DataFrame) × List Diag :=
  if langFiles.isEmpty then ([], [Diag.noLangFiles])
  else mergeLangs offsets bases total (bases, []) langFiles

/-- ModuleTranslationAugmentor.run on already-read, already-sorted inputs:
none models a False return (exit code 1, nothing written); some carries the
written per-module tables and the merge diagnostics. -/
def run (moduleFiles langFiles : List (String × DataFrame)) :
    Option (List (String × DataFrame) × List Diag) :=
  match load_module_masters moduleFiles with
  | none => none
  | some (modules, total) =>
    match compute_offsets_from_first_language langFiles modules total with
    | (false, _) => none
    | (true, offsets) =>
      some (load_all_language_files_and_write_modules offsets moduleFiles
        total langFiles)

/-- A recorded offset entry is explained by one of the modules: its range has
the module's length and its slice of the reference matches the module's
English list. -/
def goodOffset (c : List String) (modules : List (String × List String))
    (entry : String × Nat × Nat) : Prop :=
  ∃ lst, (entry.1, lst) ∈ modules ∧ lst ≠ [] ∧
    entry.2.2 = entry.2.1 + lst.length ∧ occursAt c lst entry.2.1

lemma occursAt_le (h nd : List String) (i : Nat) (hne : nd ≠ [])
    (hocc : occursAt h nd i) : i + nd.length ≤ h.length := by
  have hlen := congrArg List.length hocc
  simp only [List.length_take, List.length_drop] at hlen
  have hpos : 0 < nd.length := List.length_pos.mpr hne
  rcases le_total nd.length (h.length - i) with hc | hc
  · omega
  · have := min_eq_right hc
    omega

lemma scanCount_found (h nd : List String) :
    ∀ (k i j : Nat), scanCount h nd i k = (j : Int) →
      i ≤ j ∧ j < i + k ∧ occursAt h nd j ∧
        ∀ l : Nat, i ≤ l → l < j → ¬ occursAt h nd l := by
  intro k
  induction k with
  | zero =>
    intro i j hj
    simp [scanCount] at hj
  | succ k ih =>
    intro i j hj
    by_cases hocc : (h.drop i).take nd.length = nd
    · rw [scanCount, if_pos hocc] at hj
      have hij : i = j := by exact_mod_cast hj
      subst hij
      refine ⟨le_refl i, by omega, hocc, ?_⟩
      intro l hl1 hl2
      omega
    · rw [scanCount, if_neg hocc] at hj
      obtain ⟨h1, h2, h3, h4⟩ := ih (i + 1) j hj
      refine ⟨by omega, by omega, h3, ?_⟩
      intro l hl1 hl2
      rcases Nat.eq_or_lt_of_le hl1 with hl | hl
      · intro hc
        exact hocc (by rw [← hl] at hc; exact hc)
      · exact h4 l hl hl2

lemma scanCount_neg (h nd : List String) :
    ∀ (k i : Nat), scanCount h nd i k = -1 ↔
      ∀ j : Nat, i ≤ j → j < i + k → ¬ occursAt h nd j := by
  intro k
  induction k with
  | zero =>
    intro i
    simp [scanCount]
    intro j h1 h2
    omega
  | succ k ih =>
    intro i
    by_cases hocc : (h.drop i).take nd.length = nd
    · rw [scanCount, if_pos hocc]
      constructor
      · intro hc
        exact absurd hc (by simp)
      · intro hall
        exact absurd hocc (hall i (le_refl i) (by omega))
    · rw [scanCount, if_neg hocc]
      rw [ih (i + 1)]
      constructor
      · intro hall j h1 h2
        rcases Nat.eq_or_lt_of_le h1 with hl | hl
        · intro hc; exact hocc (by rw [← hl] at hc; exact hc)
        · exact hall j hl (by omega)
      · intro hall j h1 h2
        exact hall j (by omega) (by omega)

lemma scanCount_cases (h nd : List String) :
    ∀ (k i : Nat), scanCount h nd i k = -1 ∨
      ∃ j : Nat, scanCount h nd i k = (j : Int) := by
  intro k
  induction k with
  | zero => intro i; left; rfl
  | succ k ih =>
    intro i
    by_cases hocc : (h.drop i).take nd.length = nd
    · right; exact ⟨i, by rw [scanCount, if_pos hocc]⟩
    · rw [scanCount, if_neg hocc]; exact ih (i + 1)

lemma find_found (h nd : List String) (s j : Nat)
    (hj : find_subsequence_index h nd s = (j : Int)) :
    nd ≠ [] ∧ nd.length ≤ h.length ∧ s ≤ j ∧ occursAt h nd j ∧
      ∀ l : Nat, s ≤ l → occursAt h nd l → j ≤ l := by
  unfold find_subsequence_index at hj
  by_cases hcond : nd.length = 0 ∨ h.length < nd.length
  · rw [if_pos hcond] at hj
    exact absurd hj (by omega)
  · rw [if_neg hcond] at hj
    push_neg at hcond
    obtain ⟨h1, h2, h3, h4⟩ := scanCount_found h nd _ s j hj
    refine ⟨fun hnil => hcond.1 (by simp [hnil]), by omega, h1, h3, ?_⟩
    intro l hl hocc
    by_contra hc
    exact h4 l hl (by omega) hocc

lemma find_neg (h nd : List String) (s : Nat) :
    find_subsequence_index h nd s = -1 ↔
      (nd = [] ∨ h.length < nd.length ∨ ∀ j : Nat, s ≤ j → ¬ occursAt h nd j) := by
  unfold find_subsequence_index
  by_cases hcond : nd.length = 0 ∨ h.length < nd.length
  · rw [if_pos hcond]
    simp only [true_iff]
    rcases hcond with hc | hc
    · exact Or.inl (List.length_eq_zero.mp hc)
    · exact Or.inr (Or.inl hc)
  · rw [if_neg hcond]
    push_neg at hcond
    have hne : nd ≠ [] := fun hnil => hcond.1 (by simp [hnil])
    rw [scanCount_neg]
    constructor
    · intro hall
      right; right
      intro j hj hocc
      by_cases hwin : j < s + (h.length - nd.length + 1 - s)
      · exact hall j hj hwin hocc
      · have hle := occursAt_le h nd j hne hocc
        have hpos : 0 < nd.length := List.length_pos.mpr hne
        omega
    · intro hall j h1 h2
      rcases hall with hc | hc | hc
      · exact absurd hc hne
      · omega
      · exact hc j h1

lemma find_cases (h nd : List String) (s : Nat) :
    find_subsequence_index h nd s = -1 ∨
      ∃ j : Nat, find_subsequence_index h nd s = (j : Int) := by
  unfold find_subsequence_index
  by_cases hcond : nd.length = 0 ∨ h.length < nd.length
  · rw [if_pos hcond]; left; rfl
  · rw [if_neg hcond]; exact scanCount_cases h nd _ s

lemma lookupAssoc_update_self {α : Type} (l : List (String × α))
    (k : String) (v d : α) (hd : lookupAssoc l k = some d) :
    lookupAssoc (updateAssoc l k v) k = some v := by
  induction l with
  | nil => simp [lookupAssoc] at hd
  | cons p rest ih =>
    obtain ⟨a, b⟩ := p
    by_cases ha : a = k
    · subst ha
      simp only [updateAssoc, List.map_cons, if_true]
      rw [lookupAssoc, if_pos rfl]
    · rw [lookupAssoc, if_neg ha] at hd
      simp only [updateAssoc, List.map_cons]
      rw [if_neg (show ¬ ((a, b).1 = k) from ha)]
      rw [lookupAssoc, if_neg ha]
      exact ih hd

lemma lookupAssoc_update_none {α : Type} (l : List (String × α))
    (k : String) (v : α) (hd : lookupAssoc l k = none) :
    lookupAssoc (updateAssoc l k v) k = none := by
  induction l with
  | nil => rfl
  | cons p rest ih =>
    obtain ⟨a, b⟩ := p
    by_cases ha : a = k
    · rw [lookupAssoc, if_pos ha] at hd
      exact absurd hd (by simp)
    · rw [lookupAssoc, if_neg ha] at hd
      simp only [updateAssoc, List.map_cons]
      rw [if_neg (show ¬ ((a, b).1 = k) from ha)]
      rw [lookupAssoc, if_neg ha]
      exact ih hd

lemma lookupAssoc_update_ne {α : Type} (l : List (String × α))
    (k key : String) (v : α) (hne : key ≠ k) :
    lookupAssoc (updateAssoc l k v) key = lookupAssoc l key := by
  induction l with
  | nil => rfl
  | cons p rest ih =>
    obtain ⟨a, b⟩ := p
    simp only [updateAssoc, List.map_cons]
    by_cases ha : a = k
    · rw [if_pos (show ((a, b).1 = k) from ha)]
      rw [lookupAssoc, if_neg (fun hc => hne hc.symm)]
      rw [lookupAssoc, if_neg (show ¬ (a = key) from by
        rw [ha]; exact fun hc => hne hc.symm)]
      exact ih
    · rw [if_neg (show ¬ ((a, b).1 = k) from ha)]
      by_cases hak : a = key
      · rw [lookupAssoc, if_pos hak, lookupAssoc, if_pos hak]
      · rw [lookupAssoc, if_neg hak, lookupAssoc, if_neg hak]
        exact ih

lemma lookupAssoc_update_isSome {α : Type} (l : List (String × α))
    (k key : String) (v : α) :
    (lookupAssoc (updateAssoc l k v) key).isSome
      = (lookupAssoc l key).isSome := by
  by_cases hk : key = k
  · subst hk
    cases hd : lookupAssoc l key with
    | none => rw [lookupAssoc_update_none l key v hd]
    | some d => rw [lookupAssoc_update_self l key v d hd]; rfl
  · rw [lookupAssoc_update_ne l k key v hk]

lemma find_skip {α : Type} (p : α → Bool) :
    ∀ (l1 : List α), l1.any p = false → ∀ l2 : List α,
      (l1 ++ l2).find? p = l2.find? p := by
  intro l1
  induction l1 with
  | nil => intro _ l2; rfl
  | cons a rest ih =>
    intro hany l2
    rw [List.any_cons, Bool.or_eq_false_iff] at hany
    rw [List.cons_append, List.find?_cons_of_neg _ (by simp [hany.1])]
    exact ih hany.2 l2

lemma find_replace (n : String) (v : List String) :
    ∀ cols : List (String × List String),
      cols.any (fun c => c.1 = n) = true →
      (cols.map (fun c => if c.1 = n then (n, v) else c)).find?
          (fun c => c.1 = n) = some (n, v) := by
  intro cols
  induction cols with
  | nil => intro h; simp at h
  | cons a rest ih =>
    intro hany
    by_cases ha : a.1 = n
    · simp only [List.map_cons, if_pos ha]
      exact List.find?_cons_of_pos _ (by simp)
    · rw [List.any_cons] at hany
      simp only [ha, decide_False, Bool.false_or] at hany
      simp only [List.map_cons, if_neg ha]
      rw [List.find?_cons_of_neg _ (by simpa using ha)]
      exact ih hany

lemma find_map_ne (n : String) (v : List String) (c : String) (hne : c ≠ n) :
    ∀ cols : List (String × List String),
      (cols.map (fun p => if p.1 = n then (n, v) else p)).find?
          (fun p => p.1 = c)
        = cols.find? (fun p => p.1 = c) := by
  intro cols
  induction cols with
  | nil => rfl
  | cons a rest ih =>
    by_cases ha : a.1 = n
    · have h1 : ¬ (n = c) := fun hc => hne hc.symm
      have h2 : ¬ (a.1 = c) := by rw [ha]; exact h1
      simp only [List.map_cons, if_pos ha]
      rw [List.find?_cons_of_neg _ (by simpa using h1),
        List.find?_cons_of_neg _ (by simpa using h2)]
      exact ih
    · simp only [List.map_cons, if_neg ha]
      by_cases hc : a.1 = c
      · rw [List.find?_cons_of_pos _ (by simpa using hc),
          List.find?_cons_of_pos _ (by simpa using hc)]
      · rw [List.find?_cons_of_neg _ (by simpa using hc),
          List.find?_cons_of_neg _ (by simpa using hc)]
        exact ih

lemma getCol_setCol_self (df : DataFrame) (n : String) (v : List String) :
    (df.setCol n v).getCol n = some v := by
  unfold DataFrame.setCol DataFrame.getCol setColList
  by_cases hany : df.cols.any (fun c => c.1 = n) = true
  · rw [if_pos hany, find_replace n v df.cols hany]
    rfl
  · rw [if_neg hany]
    have hf : df.cols.any (fun c => c.1 = n) = false := by
      cases hb : df.cols.any (fun c => c.1 = n)
      · rfl
      · exact absurd hb hany
    rw [find_skip _ df.cols hf]
    rw [List.find?_cons_of_pos _ (by simp)]
    rfl

lemma getCol_setCol_ne (df : DataFrame) (n : String) (v : List String)
    (c : String) (hne : c ≠ n) :
    (df.setCol n v).getCol c = df.getCol c := by
  unfold DataFrame.setCol DataFrame.getCol setColList
  by_cases hany : df.cols.any (fun p => p.1 = n) = true
  · rw [if_pos hany, find_map_ne n v c hne df.cols]
  · rw [if_neg hany]
    congr 1
    induction df.cols with
    | nil =>
      simp only [List.nil_append]
      rw [List.find?_cons_of_neg _ (by simpa using fun hc => hne hc.symm)]
    | cons a rest ih =>
      by_cases hc : a.1 = c
      · rw [List.cons_append, List.find?_cons_of_pos _ (by simpa using hc),
          List.find?_cons_of_pos _ (by simpa using hc)]
      · rw [List.cons_append, List.find?_cons_of_neg _ (by simpa using hc),
          List.find?_cons_of_neg _ (by simpa using hc)]
        exact ih

lemma hasCol_iff_getCol_isSome (df : DataFrame) (n : String) :
    df.hasCol n = true ↔ (df.getCol n).isSome = true := by
  unfold DataFrame.hasCol DataFrame.getCol
  induction df.cols with
  | nil => simp
  | cons a rest ih =>
    by_cases ha : a.1 = n
    · rw [List.find?_cons_of_pos _ (by simpa using ha)]
      simp [List.any_cons, ha]
    · rw [List.find?_cons_of_neg _ (by simpa using ha)]
      rw [List.any_cons]
      simp only [ha, decide_False, Bool.false_or]
      exact ih

lemma hasCol_setCol_self (df : DataFrame) (n : String) (v : List String) :
    (df.setCol n v).hasCol n = true := by
  rw [hasCol_iff_getCol_isSome, getCol_setCol_self]
  rfl

lemma hasCol_setCol_mono (df : DataFrame) (n : String) (v : List String)
    (c : String) (h : df.hasCol c = true) :
    (df.setCol n v).hasCol c = true := by
  by_cases hc : c = n
  · subst hc; exact hasCol_setCol_self df c v
  · rw [hasCol_iff_getCol_isSome, getCol_setCol_ne df n v c hc]
    rw [hasCol_iff_getCol_isSome] at h
    exact h

lemma map_fst_replace (n : String) (v : List String) :
    ∀ cols : List (String × List String),
      (cols.map (fun c => if c.1 = n then (n, v) else c)).map Prod.fst
        = cols.map Prod.fst := by
  intro cols
  induction cols with
  | nil => rfl
  | cons a rest ih =>
    by_cases ha : a.1 = n
    · simp [ha, ih]
    · simp [ha, ih]

lemma names_setCol_of_hasCol (df : DataFrame) (n : String) (v : List String)
    (h : df.hasCol n = true) :
    (df.setCol n v).cols.map Prod.fst = df.cols.map Prod.fst := by
  unfold DataFrame.setCol setColList
  rw [if_pos (show df.cols.any (fun c => c.1 = n) = true from h)]
  exact map_fst_replace n v df.cols

lemma names_setCol_of_not_hasCol (df : DataFrame) (n : String)
    (v : List String) (h : df.hasCol n = false) :
    (df.setCol n v).cols.map Prod.fst = df.cols.map Prod.fst ++ [n] := by
  unfold DataFrame.setCol setColList
  rw [if_neg (show ¬ df.cols.any (fun c => c.1 = n) = true from by
    intro hc
    rw [show (df.cols.any fun c => c.1 = n) = df.hasCol n from rfl, h] at hc
    exact Bool.false_ne_true hc)]
  simp

lemma offsetsLoop_good (c : List String) :
    ∀ (mods : List (String × List String)) (acc : List (String × Nat × Nat))
      (entry : String × Nat × Nat),
      entry ∈ (offsetsLoop c acc mods).2 →
        entry ∈ acc ∨ goodOffset c mods entry := by
  intro mods
  induction mods with
  | nil => intro acc entry h; exact Or.inl h
  | cons m rest ih =>
    intro acc entry h
    obtain ⟨name, lst⟩ := m
    simp only [offsetsLoop] at h
    by_cases hmi : find_subsequence_index c lst 0 < 0
    · rw [if_pos hmi] at h
      exact Or.inl h
    · rw [if_neg hmi] at h
      have hfind : ∃ j : Nat, find_subsequence_index c lst 0 = (j : Int) := by
        rcases find_cases c lst 0 with hneg | hj
        · exact absurd (by rw [hneg]; omega) hmi
        · exact hj
      obtain ⟨j, hj⟩ := hfind
      obtain ⟨hne, _, _, hocc, _⟩ := find_found c lst 0 j hj
      rcases ih _ entry h with hacc | hgood
      · rcases List.mem_append.mp hacc with hacc | hnew
        · exact Or.inl hacc
        · right
          have hentry := List.mem_singleton.mp hnew
          subst hentry
          refine ⟨lst, List.mem_cons_self _ _, hne, rfl, ?_⟩
          have ht : (find_subsequence_index c lst 0).toNat = j := by
            rw [hj]; omega
          simpa [ht] using hocc
      · obtain ⟨lst', hm', hrest⟩ := hgood
        exact Or.inr ⟨lst', List.mem_cons_of_mem _ hm', hrest⟩

lemma offsetsLoop_all_found (c : List String) :
    ∀ (mods : List (String × List String)) (acc : List (String × Nat × Nat)),
      (offsetsLoop c acc mods).1 = true →
      ∀ p ∈ mods, ¬ find_subsequence_index c p.2 0 < 0 := by
  intro mods
  induction mods with
  | nil => intro acc _ p hp; simp at hp
  | cons m rest ih =>
    intro acc htrue p hp
    obtain ⟨name, lst⟩ := m
    simp only [offsetsLoop] at htrue
    by_cases hmi : find_subsequence_index c lst 0 < 0
    · rw [if_pos hmi] at htrue
      simp at htrue
    · rw [if_neg hmi] at htrue
      rcases List.mem_cons.mp hp with hp | hp
      · subst hp; exact hmi
      · exact ih _ htrue p hp

lemma offsetsLoop_fail_append (c : List String) (name : String)
    (lst : List String) (post : List (String × List String))
    (hnf : find_subsequence_index c lst 0 < 0) :
    ∀ (pre : List (String × List String)) (acc : List (String × Nat × Nat)),
      (∀ p ∈ pre, ¬ find_subsequence_index c p.2 0 < 0) →
      offsetsLoop c acc (pre ++ (name, lst) :: post)
        = (false, acc ++ pre.map (fun p =>
            (p.1, (find_subsequence_index c p.2 0).toNat,
              (find_subsequence_index c p.2 0).toNat + p.2.length))) := by
  intro pre
  induction pre with
  | nil =>
    intro acc _
    simp only [List.nil_append, offsetsLoop]
    rw [if_pos hnf]
    simp
  | cons p pre' ih =>
    intro acc hpre
    obtain ⟨pn, pl⟩ := p
    have hp : ¬ find_subsequence_index c pl 0 < 0 :=
      hpre (pn, pl) (List.mem_cons_self _ _)
    simp only [List.cons_append, offsetsLoop]
    rw [if_neg hp]
    simp only [List.append_eq]
    rw [ih _ (fun q hq => hpre q (List.mem_cons_of_mem _ hq))]
    simp [List.append_assoc]

lemma mergeModuleStep_lookup_isSome (bases : List (String × DataFrame))
    (locale : String) (df2 : DataFrame) (merged : List (String × DataFrame))
    (diags : List Diag) (name : String) (s e : Nat) (key : String) :
    (lookupAssoc (mergeModuleStep bases locale df2 merged diags name s e).1
        key).isSome
      = (lookupAssoc merged key).isSome := by
  cases hl : lookupAssoc merged name with
  | none => simp [mergeModuleStep, hl]
  | some dm => simp [mergeModuleStep, hl, lookupAssoc_update_isSome]

lemma mergeModuleStep_preserves_hasCol (bases : List (String × DataFrame))
    (locale : String) (df2 : DataFrame) (merged : List (String × DataFrame))
    (diags : List Diag) (name : String) (s e : Nat) (key : String)
    (d : DataFrame) (c : String)
    (hk : lookupAssoc merged key = some d) (hc : d.hasCol c = true) :
    ∃ d', lookupAssoc (mergeModuleStep bases locale df2 merged diags
        name s e).1 key = some d' ∧ d'.hasCol c = true := by
  cases hl : lookupAssoc merged name with
  | none => exact ⟨d, by simp [mergeModuleStep, hl]; exact hk, hc⟩
  | some dm =>
    by_cases hkey : key = name
    · subst hkey
      have hdm : dm = d := by rw [hl] at hk; exact Option.some.inj hk
      subst hdm
      refine ⟨dm.setCol locale (((df2.slice s e).getCol locale).getD []),
        ?_, hasCol_setCol_mono dm locale _ c hc⟩
      simp only [mergeModuleStep, hl]
      exact lookupAssoc_update_self merged key _ dm hl
    · refine ⟨d, ?_, hc⟩
      simp only [mergeModuleStep, hl]
      rw [lookupAssoc_update_ne merged name key _ hkey]
      exact hk

lemma mergeModuleStep_sets_locale (bases : List (String × DataFrame))
    (locale : String) (df2 : DataFrame) (merged : List (String × DataFrame))
    (diags : List Diag) (name : String) (s e : Nat) (dm : DataFrame)
    (hl : lookupAssoc merged name = some dm) :
    lookupAssoc (mergeModuleStep bases locale df2 merged diags name s e).1 name
      = some (dm.setCol locale (((df2.slice s e).getCol locale).getD [])) := by
  simp only [mergeModuleStep, hl]
  exact lookupAssoc_update_self merged name _ dm hl

lemma mergeModules_preserves_hasCol (bases : List (String × DataFrame))
    (locale : String) (df2 : DataFrame) (c : String) :
    ∀ (offs : List (String × Nat × Nat)) (merged : List (String × DataFrame))
      (diags : List Diag) (key : String) (d : DataFrame),
      lookupAssoc merged key = some d → d.hasCol c = true →
      ∃ d', lookupAssoc (mergeModules bases locale df2 (merged, diags)
          offs).1 key = some d' ∧ d'.hasCol c = true := by
  intro offs
  induction offs with
  | nil => intro merged diags key d hk hc; exact ⟨d, hk, hc⟩
  | cons en rest ih =>
    intro merged diags key d hk hc
    obtain ⟨n1, s1, e1⟩ := en
    obtain ⟨d1, h1, hc1⟩ := mergeModuleStep_preserves_hasCol bases locale df2
      merged diags n1 s1 e1 key d c hk hc
    rcases hst : mergeModuleStep bases locale df2 merged diags n1 s1 e1
      with ⟨m', dg'⟩
    rw [hst] at h1
    simp only [mergeModules]
    rw [hst]
    exact ih m' dg' key d1 h1 hc1

lemma mergeModules_adds_locale (bases : List (String × DataFrame))
    (locale : String) (df2 : DataFrame) :
    ∀ (offs : List (String × Nat × Nat)) (merged : List (String × DataFrame))
      (diags : List Diag) (name : String) (s e : Nat),
      (name, s, e) ∈ offs → (lookupAssoc merged name).isSome = true →
      ∃ d', lookupAssoc (mergeModules bases locale df2 (merged, diags)
          offs).1 name = some d' ∧ d'.hasCol locale = true := by
  intro offs
  induction offs with
  | nil => intro merged diags name s e hmem; simp at hmem
  | cons en rest ih =>
    intro merged diags name s e hmem hsome
    obtain ⟨n1, s1, e1⟩ := en
    rcases List.mem_cons.mp hmem with heq | hmem'
    · cases heq
      obtain ⟨dm, hdm⟩ := Option.isSome_iff_exists.mp hsome
      have hset := mergeModuleStep_sets_locale bases locale df2 merged diags
        name s e dm hdm
      rcases hst : mergeModuleStep bases locale df2 merged diags name s e
        with ⟨m', dg'⟩
      rw [hst] at hset
      simp only [mergeModules]
      rw [hst]
      exact mergeModules_preserves_hasCol bases locale df2 locale rest m' dg'
        name _ hset (hasCol_setCol_self dm locale _)
    · have hsome' : (lookupAssoc (mergeModuleStep bases locale df2 merged
          diags n1 s1 e1).1 name).isSome = true := by
        rw [mergeModuleStep_lookup_isSome]; exact hsome
      rcases hst : mergeModuleStep bases locale df2 merged diags n1 s1 e1
        with ⟨m', dg'⟩
      rw [hst] at hsome'
      simp only [mergeModules]
      rw [hst]
      exact ih m' dg' name s e hmem' hsome'

lemma processLang_preserves_hasCol (offsets : List (String × Nat × Nat))
    (bases : List (String × DataFrame)) (total : Nat)
    (merged : List (String × DataFrame)) (stem : String) (df : DataFrame)
    (key : String) (d : DataFrame) (c : String)
    (hk : lookupAssoc merged key = some d) (hc : d.hasCol c = true) :
    ∃ d', lookupAssoc (processLang offsets bases total merged stem df).1 key
      = some d' ∧ d'.hasCol c = true := by
  simp only [processLang]
  by_cases h1 : df.hasCol TRANSLATION_SOURCE_COL = false
  · rw [if_pos h1]; exact ⟨d, hk, hc⟩
  · rw [if_neg h1]
    by_cases h2 : ((df.cols.map Prod.fst).filter
        (fun x => x ≠ TRANSLATION_SOURCE_COL)).length ≠ 1
    · rw [if_pos h2]; exact ⟨d, hk, hc⟩
    · rw [if_neg h2]
      by_cases h3 : df.nrows ≠ total
      · rw [if_pos h3]; exact ⟨d, hk, hc⟩
      · rw [if_neg h3]
        exact mergeModules_preserves_hasCol bases _ _ c offsets merged [] key
          d hk hc

lemma mergeLangs_preserves_hasCol (offsets : List (String × Nat × Nat))
    (bases : List (String × DataFrame)) (total : Nat) :
    ∀ (files : List (String × DataFrame)) (merged : List (String × DataFrame))
      (diags : List Diag) (key : String) (d : DataFrame) (c : String),
      lookupAssoc merged key = some d → d.hasCol c = true →
      ∃ d', lookupAssoc (mergeLangs offsets bases total (merged, diags)
          files).1 key = some d' ∧ d'.hasCol c = true := by
  intro files
  induction files with
  | nil => intro merged diags key d c hk hc; exact ⟨d, hk, hc⟩
  | cons f rest ih =>
    intro merged diags key d c hk hc
    obtain ⟨stem, df⟩ := f
    obtain ⟨d1, h1, hc1⟩ := processLang_preserves_hasCol offsets bases total
      merged stem df key d c hk hc
    simp only [mergeLangs]
    exact ih _ _ key d1 c h1 hc1

/-- C1: _find_subsequence_index returns the smallest index i ≥ start at which
the needle occurs contiguously in the haystack (element-wise exact string
equality) whenever the needle is non-empty, no longer than the haystack, and
such an occurrence exists; in every other case (empty needle, needle longer
than the haystack, or no occurrence at or after start) it returns -1, and
those are the only two result shapes. -/
theorem find_subsequence_index_spec (haystack needle : List String)
    (start : Nat) :
    (∀ i : Nat, find_subsequence_index haystack needle start = (i : Int) →
      needle ≠ [] ∧ needle.length ≤ haystack.length ∧ start ≤ i ∧
        occursAt haystack needle i ∧
        ∀ j : Nat, start ≤ j → occursAt haystack needle j → i ≤ j)
    ∧ (find_subsequence_index haystack needle start = -1 ↔
        (needle = [] ∨ haystack.length < needle.length ∨
          ∀ j : Nat, start ≤ j → ¬ occursAt haystack needle j))
    ∧ (find_subsequence_index haystack needle start = -1 ∨
        ∃ i : Nat, find_subsequence_index haystack needle start = (i : Int)) :=
  ⟨fun i hi => find_found haystack needle start i hi,
    find_neg haystack needle start,
    find_cases haystack needle start⟩

theorem find_subsequence_index_spec_witness :
    (["hello", "world"] : List String) ≠ [] ∧
      (["hello", "world"] : List String).length
        ≤ (["foo", "hello", "world"] : List String).length ∧
      (0 : Nat) ≤ 1 ∧
      occursAt ["foo", "hello", "world"] ["hello", "world"] 1 ∧
      ∀ j : Nat, 0 ≤ j →
        occursAt ["foo", "hello", "world"] ["hello", "world"] j → 1 ≤ j :=
  (find_subsequence_index_spec ["foo", "hello", "world"] ["hello", "world"]
    0).1 1 (by decide)

/-- C2: when the reference sequence's length differs from the sum of module
row counts, offset computation fails with the offsets mapping left empty (no
match is recorded for any module), and run aborts, so no module's output
table is produced and none gains any locale column. -/
theorem row_count_mismatch_gate
    (moduleFiles langFiles : List (String × DataFrame))
    (modules : List (String × List String)) (total : Nat)
    (stem : String) (df : DataFrame) (rest : List (String × DataFrame))
    (c : List String)
    (hload : load_module_masters moduleFiles = some (modules, total))
    (hlang : langFiles = (stem, df) :: rest)
    (hcol : df.getCol TRANSLATION_SOURCE_COL = some c)
    (hmis : c.length ≠ total) :
    compute_offsets c modules total = (false, []) ∧
      run moduleFiles langFiles = none := by
  have hco : compute_offsets c modules total = (false, []) := by
    rw [compute_offsets, if_pos hmis]
  refine ⟨hco, ?_⟩
  simp [run, hload, hlang, compute_offsets_from_first_language, hcol, hco]

theorem row_count_mismatch_gate_witness :
    compute_offsets ["x"] [("A", ["x"]), ("B", ["y"])] 2 = (false, []) ∧
      run [("A", ⟨[(SOURCE_LANGUAGE_COL, ["x"])]⟩),
          ("B", ⟨[(SOURCE_LANGUAGE_COL, ["y"])]⟩)]
        [("en_GB", ⟨[(TRANSLATION_SOURCE_COL, ["x"]), ("t", ["tx"])]⟩)]
        = none :=
  row_count_mismatch_gate
    [("A", ⟨[(SOURCE_LANGUAGE_COL, ["x"])]⟩),
      ("B", ⟨[(SOURCE_LANGUAGE_COL, ["y"])]⟩)]
    [("en_GB", ⟨[(TRANSLATION_SOURCE_COL, ["x"]), ("t", ["tx"])]⟩)]
    [("A", ["x"]), ("B", ["y"])] 2
    "en_GB" ⟨[(TRANSLATION_SOURCE_COL, ["x"]), ("t", ["tx"])]⟩ [] ["x"]
    (by decide) rfl (by decide) (by decide)

/-- C3 counterexample: modules A=["x"], B=["y"], reference ["x","z"] (row
counts match).  Module B is not locatable, so the build fails — yet module A,
matched before the failure, still has its offset (0,1) recorded in the
offsets mapping afterwards: a partial offset table does remain, contradicting
the claim that no module has a recorded offset after the failed build. -/
theorem module_not_found_counterexample :
    (compute_offsets ["x", "z"] [("A", ["x"]), ("B", ["y"])] 2).1 = false ∧
      (compute_offsets ["x", "z"] [("A", ["x"]), ("B", ["y"])] 2).2
        = [("A", 0, 1)] := by decide

/-- C3 amended: if some module's English list has no match in the reference
sequence, offset computation as a whole fails (returns failure, identifying
the first unlocatable module as the point the loop stops); the offsets
recorded at that point are exactly those of the modules matched before the
first failing one, so a partial offsets mapping is retained rather than
discarded. -/
theorem module_not_found_fails (c : List String) (total : Nat)
    (pre post : List (String × List String)) (name : String)
    (lst : List String)
    (hlen : c.length = total)
    (hpre : ∀ p ∈ pre, ¬ find_subsequence_index c p.2 0 < 0)
    (hnf : find_subsequence_index c lst 0 < 0) :
    compute_offsets c (pre ++ (name, lst) :: post) total
      = (false, pre.map (fun p =>
          (p.1, (find_subsequence_index c p.2 0).toNat,
            (find_subsequence_index c p.2 0).toNat + p.2.length))) := by
  rw [compute_offsets, if_neg (by omega)]
  rw [offsetsLoop_fail_append c name lst post hnf pre [] hpre]
  simp

theorem module_not_found_fails_witness :
    compute_offsets ["x", "z"] ([("A", ["x"])] ++ ("B", ["y"]) :: []) 2
      = (false, [("A", ["x"])].map (fun p =>
          (p.1, (find_subsequence_index ["x", "z"] p.2 0).toNat,
            (find_subsequence_index ["x", "z"] p.2 0).toNat + p.2.length))) :=
  module_not_found_fails ["x", "z"] 2 [("A", ["x"])] [] "B" ["y"]
    (by decide) (by decide) (by decide)

/-- C4: every offset (s,e) recorded by a successful offset computation points
back at one of the modules: e - s equals that module's English list length,
and the slice of the reference sequence at rows s, …, e-1 equals the list
exactly. -/
theorem offsets_slice_invariant (c : List String)
    (modules : List (String × List String)) (total : Nat)
    (offs : List (String × Nat × Nat))
    (hrun : compute_offsets c modules total = (true, offs))
    (name : String) (s e : Nat) (hmem : (name, s, e) ∈ offs) :
    ∃ lst, (name, lst) ∈ modules ∧ e - s = lst.length ∧
      (c.drop s).take (e - s) = lst := by
  have hloop : offsetsLoop c [] modules = (true, offs) := by
    by_cases hlen : c.length ≠ total
    · rw [compute_offsets, if_pos hlen] at hrun
      exact absurd hrun (by simp)
    · rw [compute_offsets, if_neg hlen] at hrun
      exact hrun
  have hg := offsetsLoop_good c modules [] (name, s, e)
    (by rw [hloop]; exact hmem)
  rcases hg with habs | hgood
  · simp at habs
  · obtain ⟨lst, hm, hne, he, hocc⟩ := hgood
    have he2 : e = s + lst.length := he
    have hocc2 : occursAt c lst s := hocc
    refine ⟨lst, hm, by omega, ?_⟩
    have hlen2 : e - s = lst.length := by omega
    rw [hlen2]
    exact hocc2

theorem offsets_slice_invariant_witness :
    ∃ lst, ("A", lst) ∈ [("A", ["hello", "world"]), ("B", ["foo"])] ∧
      3 - 1 = lst.length ∧
      ((["foo", "hello", "world"] : List String).drop 1).take (3 - 1) = lst :=
  offsets_slice_invariant ["foo", "hello", "world"]
    [("A", ["hello", "world"]), ("B", ["foo"])] 3
    [("A", 1, 3), ("B", 0, 1)] (by decide) "A" 1 3 (by decide)

/-- C5: concrete scenario 1 — modules A=["hello","world"] and B=["foo"], the
designated reference source (locale en_gb) carrying en_US column
["foo","hello","world"]: offset computation succeeds and records A=(1,3) and
B=(0,1). -/
theorem scenario1_offsets :
    compute_offsets_from_first_language
        [("en_GB", ⟨[("en_US", ["foo", "hello", "world"]),
          ("text", ["f", "h", "w"])]⟩)]
        [("A", ["hello", "world"]), ("B", ["foo"])] 3
      = (true, [("A", 1, 3), ("B", 0, 1)]) := by decide

/-- C6: a locale source whose candidate translated-column count (columns
besides the reference column) is not exactly one, or whose row count differs
from the reference total, is skipped entirely: the merged frames come out of
its iteration unchanged (no module gains a column for that locale), and the
outer loop simply continues with the remaining locale sources, carrying the
skip diagnostic. -/
theorem locale_source_skipped (offsets : List (String × Nat × Nat))
    (bases : List (String × DataFrame)) (total : Nat)
    (merged : List (String × DataFrame)) (diags : List Diag)
    (stem : String) (df : DataFrame) (rest : List (String × DataFrame))
    (hsrc : df.hasCol TRANSLATION_SOURCE_COL = true)
    (hbad : ((df.cols.map Prod.fst).filter
        (fun x => x ≠ TRANSLATION_SOURCE_COL)).length ≠ 1 ∨ df.nrows ≠ total) :
    (processLang offsets bases total merged stem df).1 = merged ∧
      mergeLangs offsets bases total (merged, diags) ((stem, df) :: rest)
        = mergeLangs offsets bases total
            (merged,
              diags ++ (processLang offsets bases total merged stem df).2)
            rest := by
  have hskip : (processLang offsets bases total merged stem df).1 = merged := by
    simp only [processLang]
    rw [if_neg (by simp [hsrc])]
    by_cases h2 : ((df.cols.map Prod.fst).filter
        (fun x => x ≠ TRANSLATION_SOURCE_COL)).length ≠ 1
    · rw [if_pos h2]
    · rw [if_neg h2]
      rcases hbad with hb | hb
      · exact absurd hb h2
      · rw [if_pos hb]
  refine ⟨hskip, ?_⟩
  simp only [mergeLangs]
  rw [hskip]

theorem locale_source_skipped_witness :
    (processLang [("A", 0, 1)] [("A", ⟨[(SOURCE_LANGUAGE_COL, ["x"])]⟩)] 1
        [("A", ⟨[(SOURCE_LANGUAGE_COL, ["x"])]⟩)] "de_DE"
        ⟨[(TRANSLATION_SOURCE_COL, ["x"]), ("t1", ["a"]), ("t2", ["b"])]⟩).1
      = [("A", ⟨[(SOURCE_LANGUAGE_COL, ["x"])]⟩)] ∧
      mergeLangs [("A", 0, 1)] [("A", ⟨[(SOURCE_LANGUAGE_COL, ["x"])]⟩)] 1
          ([("A", ⟨[(SOURCE_LANGUAGE_COL, ["x"])]⟩)], [])
          (("de_DE",
            ⟨[(TRANSLATION_SOURCE_COL, ["x"]), ("t1", ["a"]), ("t2", ["b"])]⟩)
            :: [])
        = mergeLangs [("A", 0, 1)] [("A", ⟨[(SOURCE_LANGUAGE_COL, ["x"])]⟩)] 1
            ([("A", ⟨[(SOURCE_LANGUAGE_COL, ["x"])]⟩)],
              [] ++ (processLang [("A", 0, 1)]
                [("A", ⟨[(SOURCE_LANGUAGE_COL, ["x"])]⟩)] 1
                [("A", ⟨[(SOURCE_LANGUAGE_COL, ["x"])]⟩)] "de_DE"
                ⟨[(TRANSLATION_SOURCE_COL, ["x"]), ("t1", ["a"]),
                  ("t2", ["b"])]⟩).2)
            [] :=
  locale_source_skipped [("A", 0, 1)] [("A", ⟨[(SOURCE_LANGUAGE_COL, ["x"])]⟩)]
    1 [("A", ⟨[(SOURCE_LANGUAGE_COL, ["x"])]⟩)] [] "de_DE"
    ⟨[(TRANSLATION_SOURCE_COL, ["x"]), ("t1", ["a"]), ("t2", ["b"])]⟩ []
    (by decide) (by decide)

/-- C7: when, for a module and a locale source that passed the per-source
validations, the slice's reference column differs from the module's
authoritative English list, the merge step still proceeds: it emits a
mismatch diagnostic — of warning severity — alongside the usual append
diagnostic, and the module's output frame still receives the locale's sliced
translated column, unaltered. -/
theorem english_mismatch_warns_and_merges (bases : List (String × DataFrame))
    (locale : String) (df2 : DataFrame) (merged : List (String × DataFrame))
    (diags : List Diag) (name : String) (s e : Nat) (df_merged : DataFrame)
    (hm : lookupAssoc merged name = some df_merged)
    (hmis : ((lookupAssoc bases name).bind
          (fun b => b.getCol SOURCE_LANGUAGE_COL)).getD []
        ≠ ((df2.slice s e).getCol TRANSLATION_SOURCE_COL).getD []) :
    mergeModuleStep bases locale df2 merged diags name s e
      = (updateAssoc merged name (df_merged.setCol locale
            (((df2.slice s e).getCol locale).getD [])),
          diags ++ [Diag.englishMismatch name locale
              ((((lookupAssoc bases name).bind
                (fun b => b.getCol SOURCE_LANGUAGE_COL)).getD []).take 3)
              ((((df2.slice s e).getCol TRANSLATION_SOURCE_COL).getD
                []).take 3),
            Diag.appended name locale (e - s)])
      ∧ Diag.severity (Diag.englishMismatch name locale
            ((((lookupAssoc bases name).bind
              (fun b => b.getCol SOURCE_LANGUAGE_COL)).getD []).take 3)
            ((((df2.slice s e).getCol TRANSLATION_SOURCE_COL).getD
              []).take 3))
          = Severity.warning := by
  constructor
  · simp only [mergeModuleStep, hm]
    rw [if_pos hmis]
    simp
  · rfl

theorem english_mismatch_warns_and_merges_witness :
    mergeModuleStep [("A", ⟨[(SOURCE_LANGUAGE_COL, ["hello", "world"])]⟩)]
        "de_de" ⟨[(TRANSLATION_SOURCE_COL, ["hallo", "world"]),
          ("de_de", ["GutenTag", "Welt"])]⟩
        [("A", ⟨[(SOURCE_LANGUAGE_COL, ["hello", "world"])]⟩)] [] "A" 0 2
      = (updateAssoc [("A", ⟨[(SOURCE_LANGUAGE_COL, ["hello", "world"])]⟩)]
            "A" ((⟨[(SOURCE_LANGUAGE_COL, ["hello", "world"])]⟩ :
              DataFrame).setCol "de_de"
            ((((⟨[(TRANSLATION_SOURCE_COL, ["hallo", "world"]),
              ("de_de", ["GutenTag", "Welt"])]⟩ : DataFrame).slice 0
                2).getCol "de_de").getD [])),
          [] ++ [Diag.englishMismatch "A" "de_de"
              ((((lookupAssoc [("A",
                (⟨[(SOURCE_LANGUAGE_COL, ["hello", "world"])]⟩ :
                  DataFrame))] "A").bind
                (fun b => b.getCol SOURCE_LANGUAGE_COL)).getD []).take 3)
              (((((⟨[(TRANSLATION_SOURCE_COL, ["hallo", "world"]),
                ("de_de", ["GutenTag", "Welt"])]⟩ : DataFrame).slice 0
                  2).getCol TRANSLATION_SOURCE_COL).getD []).take 3),
            Diag.appended "A" "de_de" (2 - 0)])
      ∧ Diag.severity (Diag.englishMismatch "A" "de_de"
            ((((lookupAssoc [("A",
              (⟨[(SOURCE_LANGUAGE_COL, ["hello", "world"])]⟩ :
                DataFrame))] "A").bind
              (fun b => b.getCol SOURCE_LANGUAGE_COL)).getD []).take 3)
            (((((⟨[(TRANSLATION_SOURCE_COL, ["hallo", "world"]),
              ("de_de", ["GutenTag", "Welt"])]⟩ : DataFrame).slice 0
                2).getCol TRANSLATION_SOURCE_COL).getD []).take 3))
          = Severity.warning :=
  english_mismatch_warns_and_merges
    [("A", ⟨[(SOURCE_LANGUAGE_COL, ["hello", "world"])]⟩)] "de_de"
    ⟨[(TRANSLATION_SOURCE_COL, ["hallo", "world"]),
      ("de_de", ["GutenTag", "Welt"])]⟩
    [("A", ⟨[(SOURCE_LANGUAGE_COL, ["hello", "world"])]⟩)] [] "A" 0 2
    ⟨[(SOURCE_LANGUAGE_COL, ["hello", "world"])]⟩ (by decide) (by decide)

/-- C8: merging one locale for one module replaces exactly that module's
entry with its former frame extended by the locale-named column, whose
values are the slice's locale column taken positionally; on that frame the
locale column now holds those values, every other column (hence the row
order) is unchanged, the column-name sequence is preserved when the locale
column already existed (overwrite on re-run) and otherwise gains the locale
name at the end; other modules' entries are untouched. -/
theorem merge_changes_only_locale_column (bases : List (String × DataFrame))
    (locale : String) (df2 : DataFrame) (merged : List (String × DataFrame))
    (diags : List Diag) (name : String) (s e : Nat) (df_merged : DataFrame)
    (hm : lookupAssoc merged name = some df_merged) :
    (mergeModuleStep bases locale df2 merged diags name s e).1
        = updateAssoc merged name (df_merged.setCol locale
            (((df2.slice s e).getCol locale).getD []))
      ∧ (df_merged.setCol locale
            (((df2.slice s e).getCol locale).getD [])).getCol locale
          = some (((df2.slice s e).getCol locale).getD [])
      ∧ (∀ col : String, col ≠ locale →
          (df_merged.setCol locale
              (((df2.slice s e).getCol locale).getD [])).getCol col
            = df_merged.getCol col)
      ∧ (df_merged.hasCol locale = true →
          (df_merged.setCol locale
              (((df2.slice s e).getCol locale).getD [])).cols.map Prod.fst
            = df_merged.cols.map Prod.fst)
      ∧ (df_merged.hasCol locale = false →
          (df_merged.setCol locale
              (((df2.slice s e).getCol locale).getD [])).cols.map Prod.fst
            = df_merged.cols.map Prod.fst ++ [locale])
      ∧ (∀ other : String, other ≠ name →
          lookupAssoc (mergeModuleStep bases locale df2 merged diags
              name s e).1 other
            = lookupAssoc merged other) := by
  have hfirst : (mergeModuleStep bases locale df2 merged diags name s e).1
      = updateAssoc merged name (df_merged.setCol locale
          (((df2.slice s e).getCol locale).getD [])) := by
    simp [mergeModuleStep, hm]
  refine ⟨hfirst, getCol_setCol_self df_merged locale _,
    fun col hcol => getCol_setCol_ne df_merged locale _ col hcol,
    fun hh => names_setCol_of_hasCol df_merged locale _ hh,
    fun hh => names_setCol_of_not_hasCol df_merged locale _ hh,
    fun other hother => ?_⟩
  rw [hfirst]
  exact lookupAssoc_update_ne merged name other _ hother

theorem merge_changes_only_locale_column_witness :
    (mergeModuleStep [("A", ⟨[(SOURCE_LANGUAGE_COL, ["hello", "world"])]⟩)]
          "de_de" ⟨[(TRANSLATION_SOURCE_COL, ["hello", "world"]),
            ("de_de", ["GutenTag", "Welt"])]⟩
          [("A", ⟨[(SOURCE_LANGUAGE_COL, ["hello", "world"])]⟩)] [] "A" 0 2).1
        = updateAssoc [("A", ⟨[(SOURCE_LANGUAGE_COL, ["hello", "world"])]⟩)]
            "A" ((⟨[(SOURCE_LANGUAGE_COL, ["hello", "world"])]⟩ :
                DataFrame).setCol "de_de"
              ((((⟨[(TRANSLATION_SOURCE_COL, ["hello", "world"]),
                ("de_de", ["GutenTag", "Welt"])]⟩ : DataFrame).slice 0
                  2).getCol "de_de").getD []))
      ∧ ((⟨[(SOURCE_LANGUAGE_COL, ["hello", "world"])]⟩ :
            DataFrame).setCol "de_de"
            ((((⟨[(TRANSLATION_SOURCE_COL, ["hello", "world"]),
              ("de_de", ["GutenTag", "Welt"])]⟩ : DataFrame).slice 0
                2).getCol "de_de").getD [])).getCol "de_de"
          = some ((((⟨[(TRANSLATION_SOURCE_COL, ["hello", "world"]),
              ("de_de", ["GutenTag", "Welt"])]⟩ : DataFrame).slice 0
                2).getCol "de_de").getD [])
      ∧ (∀ col : String, col ≠ "de_de" →
          ((⟨[(SOURCE_LANGUAGE_COL, ["hello", "world"])]⟩ :
              DataFrame).setCol "de_de"
              ((((⟨[(TRANSLATION_SOURCE_COL, ["hello", "world"]),
                ("de_de", ["GutenTag", "Welt"])]⟩ : DataFrame).slice 0
                  2).getCol "de_de").getD [])).getCol col
            = (⟨[(SOURCE_LANGUAGE_COL, ["hello", "world"])]⟩ :
                DataFrame).getCol col)
      ∧ ((⟨[(SOURCE_LANGUAGE_COL, ["hello", "world"])]⟩ :
            DataFrame).hasCol "de_de" = true →
          ((⟨[(SOURCE_LANGUAGE_COL, ["hello", "world"])]⟩ :
              DataFrame).setCol "de_de"
              ((((⟨[(TRANSLATION_SOURCE_COL, ["hello", "world"]),
                ("de_de", ["GutenTag", "Welt"])]⟩ : DataFrame).slice 0
                  2).getCol "de_de").getD [])).cols.map Prod.fst
            = (⟨[(SOURCE_LANGUAGE_COL, ["hello", "world"])]⟩ :
                DataFrame).cols.map Prod.fst)
      ∧ ((⟨[(SOURCE_LANGUAGE_COL, ["hello", "world"])]⟩ :
            DataFrame).hasCol "de_de" = false →
          ((⟨[(SOURCE_LANGUAGE_COL, ["hello", "world"])]⟩ :
              DataFrame).setCol "de_de"
              ((((⟨[(TRANSLATION_SOURCE_COL, ["hello", "world"]),
                ("de_de", ["GutenTag", "Welt"])]⟩ : DataFrame).slice 0
                  2).getCol "de_de").getD [])).cols.map Prod.fst
            = (⟨[(SOURCE_LANGUAGE_COL, ["hello", "world"])]⟩ :
                DataFrame).cols.map Prod.fst ++ ["de_de"])
      ∧ (∀ other : String, other ≠ "A" →
          lookupAssoc (mergeModuleStep
              [("A", ⟨[(SOURCE_LANGUAGE_COL, ["hello", "world"])]⟩)]
              "de_de" ⟨[(TRANSLATION_SOURCE_COL, ["hello", "world"]),
                ("de_de", ["GutenTag", "Welt"])]⟩
              [("A", ⟨[(SOURCE_LANGUAGE_COL, ["hello", "world"])]⟩)] []
              "A" 0 2).1 other
            = lookupAssoc
                [("A", ⟨[(SOURCE_LANGUAGE_COL, ["hello", "world"])]⟩)]
                other) :=
  merge_changes_only_locale_column
    [("A", ⟨[(SOURCE_LANGUAGE_COL, ["hello", "world"])]⟩)] "de_de"
    ⟨[(TRANSLATION_SOURCE_COL, ["hello", "world"]),
      ("de_de", ["GutenTag", "Welt"])]⟩
    [("A", ⟨[(SOURCE_LANGUAGE_COL, ["hello", "world"])]⟩)] [] "A" 0 2
    ⟨[(SOURCE_LANGUAGE_COL, ["hello", "world"])]⟩ (by decide)

/-- C9 (implicit): the designated reference source is not excluded from the
merge pass — the merge loop starts with it.  When it passes the per-source
validations, every module with a recorded offset and a base entry ends the
whole merge pass with its output frame carrying a column named after the
reference source's own locale code. -/
theorem reference_source_locale_merged (offsets : List (String × Nat × Nat))
    (bases : List (String × DataFrame)) (total : Nat) (stem : String)
    (df : DataFrame) (rest : List (String × DataFrame))
    (hsrc : df.hasCol TRANSLATION_SOURCE_COL = true)
    (hone : ((df.cols.map Prod.fst).filter
        (fun x => x ≠ TRANSLATION_SOURCE_COL)).length = 1)
    (hrows : df.nrows = total)
    (name : String) (s e : Nat) (hoff : (name, s, e) ∈ offsets)
    (hbase : (lookupAssoc bases name).isSome = true) :
    ∃ d', lookupAssoc (load_all_language_files_and_write_modules offsets
        bases total ((stem, df) :: rest)).1 name = some d'
      ∧ d'.hasCol (get_locale_code_from_filename stem) = true := by
  rw [load_all_language_files_and_write_modules, if_neg (by simp)]
  have hvalid : processLang offsets bases total bases stem df
      = mergeModules bases (get_locale_code_from_filename stem)
          (df.setCol (get_locale_code_from_filename stem)
            ((df.getCol (((df.cols.map Prod.fst).filter
              (fun x => x ≠ TRANSLATION_SOURCE_COL)).headD "")).getD []))
          (bases, []) offsets := by
    simp only [processLang]
    rw [if_neg (by simp [hsrc]), if_neg (not_ne_iff.mpr hone),
      if_neg (not_ne_iff.mpr hrows)]
  obtain ⟨d1, h1, hc1⟩ := mergeModules_adds_locale bases
    (get_locale_code_from_filename stem)
    (df.setCol (get_locale_code_from_filename stem)
      ((df.getCol (((df.cols.map Prod.fst).filter
        (fun x => x ≠ TRANSLATION_SOURCE_COL)).headD "")).getD []))
    offsets bases [] name s e hoff hbase
  rw [← hvalid] at h1
  simp only [mergeLangs]
  exact mergeLangs_preserves_hasCol offsets bases total rest _ _ name d1
    (get_locale_code_from_filename stem) h1 hc1

theorem reference_source_locale_merged_witness :
    ∃ d', lookupAssoc (load_all_language_files_and_write_modules
        [("A", 0, 1)] [("A", ⟨[(SOURCE_LANGUAGE_COL, ["x"])]⟩)] 1
        (("en_GB", ⟨[(TRANSLATION_SOURCE_COL, ["x"]), ("t", ["tx"])]⟩)
          :: [])).1 "A" = some d'
      ∧ d'.hasCol (get_locale_code_from_filename "en_GB") = true :=
  reference_source_locale_merged [("A", 0, 1)]
    [("A", ⟨[(SOURCE_LANGUAGE_COL, ["x"])]⟩)] 1 "en_GB"
    ⟨[(TRANSLATION_SOURCE_COL, ["x"]), ("t", ["tx"])]⟩ []
    (by decide) (by decide) (by decide) "A" 0 1 (by decide) (by decide)

/-- C10 (implicit): for a locale table that passed the row-count validation
(well-formed, row count = total) and any offset (s,e) recorded by a
successful offset computation, 0 ≤ s ≤ e ≤ total holds, every column of the
positional slice has exactly e - s rows — the module's own row count — so
the positional column assignment can hit neither a length mismatch nor an
out-of-bounds row. -/
theorem offsets_slice_safety (c : List String)
    (modules : List (String × List String)) (total : Nat)
    (offs : List (String × Nat × Nat))
    (hrun : compute_offsets c modules total = (true, offs))
    (name : String) (s e : Nat) (hmem : (name, s, e) ∈ offs)
    (df : DataFrame) (hwf : df.Wf) (hrows : df.nrows = total) :
    s ≤ e ∧ e ≤ total ∧
      (∀ col ∈ (df.slice s e).cols, col.2.length = e - s) ∧
      (df.slice s e).nrows = e - s ∧
      ∃ lst, (name, lst) ∈ modules ∧ e - s = lst.length := by
  have hlen : c.length = total := by
    by_cases hc : c.length ≠ total
    · rw [compute_offsets, if_pos hc] at hrun
      exact absurd hrun (by simp)
    · omega
  have hloop : offsetsLoop c [] modules = (true, offs) := by
    rw [compute_offsets, if_neg (by omega)] at hrun
    exact hrun
  have hg := offsetsLoop_good c modules [] (name, s, e)
    (by rw [hloop]; exact hmem)
  rcases hg with habs | hgood
  · simp at habs
  · obtain ⟨lst, hm, hne, he, hocc⟩ := hgood
    have he2 : e = s + lst.length := he
    have hocc2 : occursAt c lst s := hocc
    have hle := occursAt_le c lst s hne hocc2
    have hpos : 0 < lst.length := List.length_pos.mpr hne
    have hse : s ≤ e := by omega
    have het : e ≤ total := by omega
    have hcols : ∀ col ∈ (df.slice s e).cols, col.2.length = e - s := by
      intro col hcol
      simp only [DataFrame.slice] at hcol
      obtain ⟨c0, hc0, hfc⟩ := List.mem_map.mp hcol
      rw [← hfc]
      simp only [List.length_take, List.length_drop]
      have h1 := hwf c0 hc0
      omega
    refine ⟨hse, het, hcols, ?_, lst, hm, by omega⟩
    rcases hd : df.cols with _ | ⟨c0, cs⟩
    · exfalso
      have h0 : df.nrows = 0 := by simp [DataFrame.nrows, hd]
      omega
    · have h1 := hwf c0 (by rw [hd]; exact List.mem_cons_self _ _)
      have hsc : (df.slice s e).cols
          = (c0.1, (c0.2.drop s).take (e - s))
            :: cs.map (fun x => (x.1, (x.2.drop s).take (e - s))) := by
        simp [DataFrame.slice, hd]
      simp only [DataFrame.nrows, hsc]
      simp only [List.length_take, List.length_drop]
      omega

theorem offsets_slice_safety_witness :
    (1 : Nat) ≤ 3 ∧ (3 : Nat) ≤ 3 ∧
      (∀ col ∈ ((⟨[("en_US", ["foo", "hello", "world"]),
          ("t", ["a", "b", "c"])]⟩ : DataFrame).slice 1 3).cols,
        col.2.length = 3 - 1) ∧
      ((⟨[("en_US", ["foo", "hello", "world"]),
          ("t", ["a", "b", "c"])]⟩ : DataFrame).slice 1 3).nrows = 3 - 1 ∧
      ∃ lst, ("A", lst) ∈ [("A", ["hello", "world"]), ("B", ["foo"])] ∧
        3 - 1 = lst.length :=
  offsets_slice_safety ["foo", "hello", "world"]
    [("A", ["hello", "world"]), ("B", ["foo"])] 3
    [("A", 1, 3), ("B", 0, 1)] (by decide) "A" 1 3 (by decide)
    ⟨[("en_US", ["foo", "hello", "world"]), ("t", ["a", "b", "c"])]⟩
    (by decide) (by decide)
